import Mathlib

/-!
Verification of the `how-to-jwks` key-lifecycle / session engine.

The development shallowly embeds the TypeScript sources:
  - `src/shared/utils/sessions/validate-access-token.ts` (token verification and
    the key-lifecycle functions `ensureActiveKey`, `rotateKeys`, `revokeKey`,
    `getJWKS`, `getActivePrivateKeyAndKid`),
  - `src/shared/utils/sessions/create-access-token.ts` / `create-refresh-token.ts`,
  - `src/shared/utils/sessions/create-user-session.ts`,
  - `src/shared/utils/sessions/refresh-tokens.ts`,
  - `src/shared/database/repositories/sessions-repository.ts`.

Redis is modelled as a record of the five keyspaces the code uses
(`auth:keys:active`, `auth:keys:pem:*`, `auth:keys:jwk:*`, `auth:keys:recent`,
`auth:keys:revoked`); the `pem:*` and `jwk:*` prefixed string keys become two
association lists keyed by `kid`, the sorted set becomes a score-ascending list,
and `JSON.stringify`/`JSON.parse` of a JWK round-trips to the identity.
RSA key pairs are modelled abstractly: the n-th generated pair is named by the
number `n`; a signature made with private key `n` verifies exactly against the
public JWK carrying the same number.  The `jose` library's claim handling
(`setExpirationTime`, the `secs` time-span grammar, `jwtVerify`) is embedded
value-by-value, including the fact that a JavaScript number passed to
`setExpirationTime` is used as an epoch-seconds value unchanged and a string is
parsed with the time-span grammar (anything else raises `TypeError`).
-/

namespace HowToJwks

/-- Error values surfaced by the embedded operations: `unauthorized` models the
repository's `UnauthorizedError`, `typeError` models a `TypeError` thrown by
`jose`, and `storeUnavailable` models the key-value store collaborator being
unreachable (a rejected promise from the redis client). -/
inductive Err where
  | unauthorized (msg : String)
  | typeError (msg : String)
  | storeUnavailable
deriving DecidableEq, Repr

def Err.isUnauthorized : Err → Bool
  | .unauthorized _ => true
  | _ => false

/-! ### The jose layer -/

/-- Weekday names as used by JavaScript `Date#toString`, indexed from the epoch:
day 0 (1970-01-01) was a Thursday. -/
def weekdayNames : List String := ["Thu", "Fri", "Sat", "Sun", "Mon", "Tue", "Wed"]

/-- Model of JavaScript `Date#toString` on an epoch-millisecond value.  The real
result looks like `"Sat Oct 11 2025 00:00:00 GMT+0000 (…)"`; the model keeps the
leading weekday word (computed from the epoch day) and abstracts the rest of the
text, which nothing in the code base inspects beyond jose's time-span grammar
(whose match already fails on the weekday word). -/
def jsDateToString (ms : Nat) : String :=
  weekdayNames.getD ((ms / 86400000) % 7) "Thu" ++ " " ++ toString ms

/-- Drops one leading `+` or `-`, as the jose time-span grammar allows. -/
def stripSign : List Char → List Char
  | c :: t => if c = '+' ∨ c = '-' then t else c :: t
  | [] => []

/-- Drops one leading space, as the jose time-span grammar allows. -/
def stripOneSpace : List Char → List Char
  | c :: t => if c = ' ' then t else c :: t
  | [] => []

/-- Seconds-per-unit table of jose's time-span grammar (`secs`), lower-cased
(the grammar is case-insensitive); a year is 365.25 days there. -/
def timespanUnitSecs (unit : String) : Option Nat :=
  if unit = "second" ∨ unit = "seconds" ∨ unit = "sec" ∨ unit = "secs" ∨ unit = "s" then
    some 1
  else if unit = "minute" ∨ unit = "minutes" ∨ unit = "min" ∨ unit = "mins" ∨ unit = "m" then
    some 60
  else if unit = "hour" ∨ unit = "hours" ∨ unit = "hr" ∨ unit = "hrs" ∨ unit = "h" then
    some 3600
  else if unit = "day" ∨ unit = "days" ∨ unit = "d" then
    some 86400
  else if unit = "week" ∨ unit = "weeks" ∨ unit = "w" then
    some 604800
  else if unit = "year" ∨ unit = "years" ∨ unit = "yr" ∨ unit = "yrs" ∨ unit = "y" then
    some 31557600
  else
    none

/-- jose's `secs` time-span grammar on a character list: an optional sign, an
optional space, a non-empty digit run, an optional space, and a unit word
must make up the whole input.  Returns `none` exactly where jose throws
`TypeError "Invalid time period format"`.  (The fractional magnitudes jose also
accepts are left out: no call site of this code base ever passes a valid
time span at all.) -/
def parseTimespanChars (cs : List Char) : Option Nat :=
  let body := stripOneSpace (stripSign cs)
  let digits := body.takeWhile Char.isDigit
  let unit := stripOneSpace (body.dropWhile Char.isDigit)
  if digits = [] then none
  else
    match timespanUnitSecs (String.mk unit).toLower, (String.mk digits).toNat? with
    | some mult, some n => some (n * mult)
    | _, _ => none

/-- jose's `secs` on a string. -/
def parseTimespan (s : String) : Option Nat :=
  parseTimespanChars s.data

/-- Argument type of jose's `setExpirationTime`: a JavaScript number, string, or
`Date`. -/
inductive ExpInput where
  | num (n : Nat)
  | str (s : String)
  | date (ms : Nat)
deriving DecidableEq, Repr

/-- jose `setExpirationTime` semantics: a number is stored as the `exp` claim
unchanged (the claim's unit is epoch seconds per RFC 7519), a `Date` is
converted to epoch seconds, and a string is parsed as a time span relative to
the current time — any other string raises `TypeError`. -/
def expClaim (input : ExpInput) (nowMs : Nat) : Except Err Nat :=
  match input with
  | .num n => .ok n
  | .date ms => .ok (ms / 1000)
  | .str s =>
    match parseTimespan s with
    | some k => .ok (nowMs / 1000 + k)
    | none => .error (.typeError "Invalid time period format")

/-- A public verification key as published in the JWK set: the `kid`, the
algorithm and use tags set by the code, and the abstract public half `keyId`
of the generated pair. -/
structure JWK where
  kid : String
  alg : String
  use : String
  keyId : Nat
deriving DecidableEq, Repr

/-- A signed JWT as produced by the `SignJWT` chain of the code: payload claims
`sub`, `jti`, `iss`, `iat` (epoch seconds), `exp` (epoch seconds, per RFC 7519),
protected-header fields `kid` and `alg`, and the abstract private key
`sigKeyId` the signature was made with. -/
structure Jwt where
  sub : String
  jti : String
  iss : String
  iat : Nat
  exp : Option Nat
  kid : String
  alg : String
  sigKeyId : Nat
deriving DecidableEq, Repr

/-- The `new jose.SignJWT({sub, jti}).setIssuedAt().setIssuer(iss)
.setExpirationTime(e).setProtectedHeader({alg: RS256, typ: JWT, kid}).sign(key)`
chain.  The signing key is an `Option` because `getActivePrivateKeyAndKid` is
typed non-null but can hand back a runtime `null`; jose then throws. -/
def signJWT (sub jti iss : String) (expInput : ExpInput) (kid : String)
    (key : Option Nat) (nowMs : Nat) : Except Err Jwt :=
  match expClaim expInput nowMs with
  | .error e => .error e
  | .ok exp =>
    match key with
    | none => .error (.typeError "invalid key input")
    | some keyId =>
      .ok { sub := sub, jti := jti, iss := iss, iat := nowMs / 1000,
            exp := some exp, kid := kid, alg := "RS256", sigKeyId := keyId }

/-- jose `jwtVerify` against a local JWK set with `algorithms: [RS256]` and an
expected issuer: the key is selected by the token header's `kid`, the signature
verifies exactly when the selected public key is the pair of the signing private
key, the issuer must match, and an `exp` claim at or before `now` (epoch
seconds, zero clock tolerance) is expired.  On success the payload is
returned. -/
def jwtVerify (token : Jwt) (keys : List JWK) (issuer : String) (nowS : Nat) :
    Except Err (String × String) :=
  match keys.find? (fun k => k.kid == token.kid) with
  | none => .error (.unauthorized "no applicable key found in the JSON Web Key Set")
  | some jwk =>
    if token.alg ≠ "RS256" then .error (.unauthorized "unexpected token algorithm")
    else if jwk.keyId ≠ token.sigKeyId then
      .error (.unauthorized "signature verification failed")
    else if token.iss ≠ issuer then .error (.unauthorized "unexpected iss claim value")
    else
      match token.exp with
      | some e => if e ≤ nowS then .error (.unauthorized "exp claim timestamp check failed")
                  else .ok (token.sub, token.jti)
      | none => .ok (token.sub, token.jti)

/-! ### The redis-backed key store -/

/-- Lookup in an association list (a prefixed redis string keyspace). -/
def alistGet {α : Type} (l : List (String × α)) (k : String) : Option α :=
  (l.find? (fun p => p.1 == k)).map (fun p => p.2)

/-- Overwriting insert into an association list (redis `SET`). -/
def alistSet {α : Type} (l : List (String × α)) (k : String) (v : α) :
    List (String × α) :=
  (k, v) :: l.filter (fun p => p.1 ≠ k)

/-- Deletion from an association list (redis `DEL`). -/
def alistDel {α : Type} (l : List (String × α)) (k : String) : List (String × α) :=
  l.filter (fun p => p.1 ≠ k)

/-- Sorted-set insert (redis `ZADD` placement): keeps the list ordered by score,
ties ordered by member, as redis does. -/
def zinsert (score : Nat) (member : String) :
    List (Nat × String) → List (Nat × String)
  | [] => [(score, member)]
  | (s, m) :: t =>
    if score < s ∨ (score = s ∧ member < m) then (score, member) :: (s, m) :: t
    else (s, m) :: zinsert score member t

/-- The key store: the five redis keyspaces used by the key-lifecycle code.
`activeKid` is the value at `auth:keys:active`, `pems` and `jwks` are the
`auth:keys:pem:*` and `auth:keys:jwk:*` string keys collected by `kid`,
`recent` is the `auth:keys:recent` sorted set in score-ascending order, and
`revoked` is the `auth:keys:revoked` set. -/
structure KeyStore where
  activeKid : Option String
  pems : List (String × String)
  jwks : List (String × JWK)
  recent : List (Nat × String)
  revoked : List String
deriving DecidableEq, Repr

def KeyStore.empty : KeyStore := ⟨none, [], [], [], []⟩

/-- Redis `ZADD auth:keys:recent score kid`: an existing entry for the member is
re-scored, otherwise the member is inserted at its score position. -/
def KeyStore.zadd (st : KeyStore) (score : Nat) (member : String) : KeyStore :=
  { st with recent := zinsert score member (st.recent.filter (fun p => p.2 ≠ member)) }

/-- The retention trim both `ensureActiveKey` and `rotateKeys` perform after
inserting a new key: when the sorted set holds more than `keep` members, the
oldest `total - keep` members (`ZRANGE 0 (total-keep-1)`) each have their
private and public material deleted (one `DEL` pair per member, as in the
source's loop) and are removed from the sorted set (`ZREM`). -/
def trimRecent (keep : Nat) (st : KeyStore) : KeyStore :=
  let total := st.recent.length
  if total > keep then
    let toRemove := (st.recent.take (total - keep)).map (fun p => p.2)
    { st with
      pems := toRemove.foldl alistDel st.pems,
      jwks := toRemove.foldl alistDel st.jwks,
      recent := toRemove.foldl (fun acc m => acc.filter (fun p => p.2 ≠ m)) st.recent }
  else st

/-- `jose.exportPKCS8` of the abstract private key `n`: a PEM blob, modelled as
a `P` header followed by a unary payload naming the pair. -/
def exportPKCS8 (n : Nat) : String := String.mk ('P' :: List.replicate n 'k')

/-- `jose.importPKCS8`: recovers the abstract key from its PEM encoding; jose's
rejection of input that is not PEM text is modelled by the header check. -/
def importPKCS8 (pem : String) : Except Err Nat :=
  match pem.data with
  | 'P' :: t => .ok t.length
  | _ => .error (.typeError "invalid PKCS8 input")

/-- `jose.importPKCS8` applied to the result of a nullable store read that the
code passes through a TypeScript non-null assertion: a `null` value reaches jose
unchecked and raises `TypeError`. -/
def importPKCS8opt : Option String → Except Err Nat
  | none => .error (.typeError "pkcs8 must be a string")
  | some pem => importPKCS8 pem

/-- The public JWK the code builds for generated pair `n` under `kid`:
`jwk.kid`, `jwk.alg = RS256`, `jwk.use = sig`. -/
def jwkOf (kid : String) (n : Nat) : JWK :=
  { kid := kid, alg := "RS256", use := "sig", keyId := n }

/-! ### World state and configuration -/

inductive SessionStatus where
  | active
  | revoked
  | expired
deriving DecidableEq, Repr

/-- A row of the `sessions` table: `id` is the DB-generated primary key,
`token` and `refreshToken` hold the current token values, `expiresAt`,
`createdAt` and `refreshedAt` are epoch-millisecond timestamps. -/
structure Session where
  id : String
  userId : String
  token : Jwt
  refreshToken : Jwt
  status : SessionStatus
  expiresAt : Nat
  createdAt : Nat
  refreshedAt : Nat
deriving DecidableEq, Repr

/-- The mutable world: the redis key store, the `sessions` table in insertion
order, the position of the shared `crypto.randomUUID()` supply, the position of
the `jose.generateKeyPair` supply, and the position of the database's
`gen_random_uuid()` supply for new `sessions.id` values. -/
structure World where
  store : KeyStore
  sessions : List Session
  uuidCtr : Nat
  keyCtr : Nat
  dbIdCtr : Nat
deriving DecidableEq, Repr

def World.empty : World := ⟨KeyStore.empty, [], 0, 0, 0⟩

/-- Configuration and randomness supplies: the issuer string, the two token
time-to-live values in milliseconds, the retention maximum `JWKS_MAX_KEYS`
(default 5), the `crypto.randomUUID()` value supply, and the database
`gen_random_uuid()` value supply. -/
structure Env where
  issuer : String
  accessTTLms : Nat
  refreshTTLms : Nat
  keep : Nat
  uuid : Nat → String
  dbUuid : Nat → String

/-! ### The key lifecycle manager (`keys.ts`, cited lines of
`validate-access-token.ts` in the claims) -/

/-- Result shape of `ensureActiveKey`: the `kid`, and the loaded private key and
public JWK, both typed non-null in the source but `null`-able at runtime
(`pem ? await jose.importPKCS8(pem) : null`). -/
structure ActiveKeyInfo where
  kid : String
  privateKey : Option Nat
  publicJwk : Option JWK
deriving DecidableEq, Repr

/-- The read-back both branches of `ensureActiveKey` end with: load the PEM and
the JWK of `kid`; a present but undecodable PEM makes jose throw, a missing one
yields `null`. -/
def loadActiveKeyInfo (kid : String) (st : KeyStore) : Except Err ActiveKeyInfo :=
  match alistGet st.pems kid with
  | none => .ok ⟨kid, none, alistGet st.jwks kid⟩
  | some pem =>
    match importPKCS8 pem with
    | .error e => .error e
    | .ok k => .ok ⟨kid, some k, alistGet st.jwks kid⟩

/-- `ensureActiveKey()`: if `auth:keys:active` is unset, generate a pair, store
its PEM and JWK under a fresh `kid`, point `auth:keys:active` at it, insert it
into the retention index at the current time and trim the index; then (in
either case) read the active key's material back. -/
def ensureActiveKey (env : Env) (nowMs : Nat) (w : World) :
    Except Err (ActiveKeyInfo × World) :=
  match w.store.activeKid with
  | some kid =>
    match loadActiveKeyInfo kid w.store with
    | .error e => .error e
    | .ok info => .ok (info, w)
  | none =>
    let newKid := env.uuid w.uuidCtr
    let keyId := w.keyCtr
    let st1 := { w.store with pems := alistSet w.store.pems newKid (exportPKCS8 keyId) }
    let st2 := { st1 with jwks := alistSet st1.jwks newKid (jwkOf newKid keyId) }
    let st3 := { st2 with activeKid := some newKid }
    let st4 := trimRecent env.keep (st3.zadd nowMs newKid)
    let w2 : World := { w with store := st4, uuidCtr := w.uuidCtr + 1, keyCtr := w.keyCtr + 1 }
    match loadActiveKeyInfo newKid w2.store with
    | .error e => .error e
    | .ok info => .ok (info, w2)

/-- `rotateKeys()`: unconditionally generate a pair, store it under a fresh
`kid`, make it the active key, insert it into the retention index and trim.
Returns the new `kid` and private key. -/
def rotateKeys (env : Env) (nowMs : Nat) (w : World) : (String × Nat) × World :=
  let kid := env.uuid w.uuidCtr
  let keyId := w.keyCtr
  let st1 := { w.store with pems := alistSet w.store.pems kid (exportPKCS8 keyId) }
  let st2 := { st1 with jwks := alistSet st1.jwks kid (jwkOf kid keyId) }
  let st3 := { st2 with activeKid := some kid }
  let st4 := trimRecent env.keep (st3.zadd nowMs kid)
  ((kid, keyId), { w with store := st4, uuidCtr := w.uuidCtr + 1, keyCtr := w.keyCtr + 1 })

/-- `revokeKey(kid)`: add the `kid` to the revocation set and delete its private
material.  The active-key pointer and the retention index are left untouched. -/
def revokeKey (kid : String) (w : World) : World :=
  let st := w.store
  let st1 := { st with revoked := if st.revoked.contains kid then st.revoked else kid :: st.revoked }
  { w with store := { st1 with pems := alistDel st1.pems kid } }

/-- `getJWKS()`: the `keep` most recent members of the retention index
(`ZREVRANGE 0 (keep-1)`, most-recent first; modelled for `keep ≥ 1`), dropping
revoked `kid`s and `kid`s whose JWK blob is missing. -/
def getJWKS (keep : Nat) (st : KeyStore) : List JWK :=
  let kids := (st.recent.reverse.take keep).map (fun p => p.2)
  kids.filterMap (fun kid =>
    if st.revoked.contains kid then none else alistGet st.jwks kid)

/-- `getLocalJwkSet()` seen from `validateAccessToken`: the store may be
unavailable (`none`), in which case the underlying redis reads reject and the
call raises. -/
def getLocalJwkSetE (keep : Nat) : Option KeyStore → Except Err (List JWK)
  | none => .error .storeUnavailable
  | some st => .ok (getJWKS keep st)

/-- `getActivePrivateKeyAndKid()`: if `auth:keys:active` is unset, delegate to
`ensureActiveKey`; otherwise read the active `kid`'s PEM — the read is passed
through a non-null assertion, so a missing PEM reaches `jose.importPKCS8` as
`null` and raises. -/
def getActivePrivateKeyAndKid (env : Env) (nowMs : Nat) (w : World) :
    Except Err ((Option Nat × String) × World) :=
  match w.store.activeKid with
  | none =>
    match ensureActiveKey env nowMs w with
    | .error e => .error e
    | .ok (info, w2) => .ok ((info.privateKey, info.kid), w2)
  | some kid =>
    match importPKCS8opt (alistGet w.store.pems kid) with
    | .error e => .error e
    | .ok k => .ok ((some k, kid), w)

/-! ### The token codec -/

/-- `createAccessToken({userId, sessionId})`: fetch the active signing key and
sign `{sub: userId, jti: sessionId}` with issuer `envs.app.ISSUER` and
`setExpirationTime(Date.now() + envs.app.ACCESS_TOKEN_EXPIRY_MS)` — a
JavaScript number, stored by jose as the `exp` claim unchanged. -/
def createAccessToken (env : Env) (userId sessionId : String) (nowMs : Nat)
    (w : World) : Except Err Jwt × World :=
  match getActivePrivateKeyAndKid env nowMs w with
  | .error e => (.error e, w)
  | .ok ((key, kid), w2) =>
    (signJWT userId sessionId env.issuer (.num (nowMs + env.accessTTLms)) kid key nowMs, w2)

/-- `createRefreshToken({userId, sessionId})`: fetch the active signing key and
sign `{sub: userId, jti: sessionId}` with issuer `envs.app.ISSUER` and
`setExpirationTime(new Date(Date.now() + envs.app.REFRESH_TOKEN_EXPIRY_MS).toString())`
— a `Date#toString` text handed to jose's time-span grammar. -/
def createRefreshToken (env : Env) (userId sessionId : String) (nowMs : Nat)
    (w : World) : Except Err Jwt × World :=
  match getActivePrivateKeyAndKid env nowMs w with
  | .error e => (.error e, w)
  | .ok ((key, kid), w2) =>
    (signJWT userId sessionId env.issuer
      (.str (jsDateToString (nowMs + env.refreshTTLms))) kid key nowMs, w2)

/-- Result shape of `validateAccessToken`. -/
structure ValidationResult where
  userId : Option String
  sessionId : Option String
  isValid : Bool
deriving DecidableEq, Repr

/-- The `try` body of `validateAccessToken(token)`: build the local JWK set,
run `jose.jwtVerify` with `algorithms: [RS256]` and the configured issuer, and
reject a payload whose `sub` or `jti` is falsy. -/
def validateAccessTokenBody (env : Env) (storeState : Option KeyStore)
    (token : Jwt) (nowS : Nat) : Except Err ValidationResult :=
  match getLocalJwkSetE env.keep storeState with
  | .error e => .error e
  | .ok jwkSet =>
    match jwtVerify token jwkSet env.issuer nowS with
    | .error e => .error e
    | .ok (userId, sessionId) =>
      if userId = "" ∨ sessionId = "" then .ok ⟨none, none, false⟩
      else .ok ⟨some userId, some sessionId, true⟩

/-- `validateAccessToken(token)`: the whole body sits in a `try` whose `catch`
returns `{userId: null, sessionId: null, isValid: false}` for every failure —
including a rejected key-store read. -/
def validateAccessToken (env : Env) (storeState : Option KeyStore) (token : Jwt)
    (nowS : Nat) : ValidationResult :=
  match validateAccessTokenBody env storeState token nowS with
  | .error _ => ⟨none, none, false⟩
  | .ok r => r

/-- Modelled from the spec: `src/shared/utils/sessions/validate-refresh-token.ts`
is imported by `refresh-tokens.ts` and the auth middleware but is absent from
the sources.  Per the spec's Token Codec `Verify(token, now)` — "fetches the
current verification key set, attempts signature verification against the key
whose `kid` matches the token header, enforces issuer match and expiry.  On any
failure returns an explicit invalid result carrying no subject/session.  On
success returns `{subject, sessionId}`" — and per the call sites' result shape
`{userId, sessionId, isValid}`, it mirrors `validateAccessToken`. -/
def validateRefreshToken (env : Env) (st : KeyStore) (token : Jwt) (nowS : Nat) :
    ValidationResult :=
  validateAccessToken env (some st) token nowS

/-! ### The sessions repository -/

/-- `countActiveSessions(userId)`: the user's rows with status `active`. -/
def countActiveSessions (userId : String) (db : List Session) : Nat :=
  (db.filter (fun s => s.userId == userId && s.status == SessionStatus.active)).length

/-- Fold step of the oldest-active selection (`ORDER BY created_at LIMIT 1`):
keeps the earliest `createdAt`, ties resolved to the earlier row. -/
def olderOf (acc : Option Session) (s : Session) : Option Session :=
  match acc with
  | none => some s
  | some b => if s.createdAt < b.createdAt then some s else some b

/-- The row `revokeOldestSession` selects: the user's active session with the
smallest `createdAt` (ties resolved by select order, which the SQL leaves
unspecified). -/
def findOldestActive (userId : String) (db : List Session) : Option Session :=
  (db.filter (fun s => s.userId == userId && s.status == SessionStatus.active)).foldl
    olderOf none

/-- `revokeSession(sessionId)`: set status `revoked` on the matching row(s). -/
def revokeSessionIn (sessionId : String) (db : List Session) : List Session :=
  db.map (fun s => if s.id == sessionId then { s with status := SessionStatus.revoked } else s)

/-- `revokeOldestSession(userId)`: revoke the selected oldest active row, if
any. -/
def revokeOldestSession (userId : String) (db : List Session) : List Session :=
  match findOldestActive userId db with
  | none => db
  | some s => revokeSessionIn s.id db

/-- `sessionsRepository.create({userId, token, refreshToken, expiresAt})`: the
inserted row takes its `id` from the column default `gen_random_uuid()`, status
from the default `active`, and `created_at`/`refreshed_at` from `now()`. -/
def sessionsCreate (userId : String) (token refreshToken : Jwt) (expiresAt : Nat)
    (rowId : String) (nowMs : Nat) (db : List Session) : Session × List Session :=
  let row : Session :=
    { id := rowId, userId := userId, token := token, refreshToken := refreshToken,
      status := SessionStatus.active, expiresAt := expiresAt,
      createdAt := nowMs, refreshedAt := nowMs }
  (row, db ++ [row])

/-! ### The session lifecycle engine -/

def MAX_CONCURRENT_SESSIONS : Nat := 5

/-- `createUserSession(userId)`: count the user's active sessions and revoke the
oldest when at the ceiling; mint an access token with `sessionId:
crypto.randomUUID()` and a refresh token with `sessionId: crypto.randomUUID()`
(two separate draws); insert the new row (whose `id` is a third, DB-generated
value) and fail with `UnauthorizedError` if the insert returns nothing.
Failures propagate with the world as of the failure point: the repository
writes are not transactional here. -/
def createUserSession (env : Env) (userId : String) (nowMs : Nat) (w : World) :
    Except Err (Jwt × Jwt) × World :=
  let cnt := countActiveSessions userId w.sessions
  let w1 := if cnt ≥ MAX_CONCURRENT_SESSIONS then
              { w with sessions := revokeOldestSession userId w.sessions }
            else w
  let sid1 := env.uuid w1.uuidCtr
  let w2 := { w1 with uuidCtr := w1.uuidCtr + 1 }
  match createAccessToken env userId sid1 nowMs w2 with
  | (.error e, w3) => (.error e, w3)
  | (.ok accessToken, w3) =>
    let sid2 := env.uuid w3.uuidCtr
    let w4 := { w3 with uuidCtr := w3.uuidCtr + 1 }
    match createRefreshToken env userId sid2 nowMs w4 with
    | (.error e, w5) => (.error e, w5)
    | (.ok refreshToken, w5) =>
      let rowId := env.dbUuid w5.dbIdCtr
      let (_, db2) := sessionsCreate userId accessToken refreshToken
        (nowMs + env.accessTTLms) rowId nowMs w5.sessions
      (.ok (accessToken, refreshToken),
        { w5 with sessions := db2, dbIdCtr := w5.dbIdCtr + 1 })

/-- The transaction body of `refreshTokens(refreshToken)`: the four guarded
preconditions in source order — the first is the JavaScript truthiness test
`!isValid || !userId || !sessionId`, with an absent claim reading as the falsy
empty string — then the two mints bound to `session.id`, then the three session
updates.  The returned session is the looked-up row, as in the source (read
before the updates). -/
def refreshTokensTx (env : Env) (presented : Jwt) (nowMs : Nat) (w : World) :
    Except Err (Jwt × Jwt × Session) × World :=
  let r := validateRefreshToken env w.store presented (nowMs / 1000)
  let userId := r.userId.getD ""
  let sessionId := r.sessionId.getD ""
  if r.isValid = false ∨ userId = "" ∨ sessionId = "" then
    (.error (.unauthorized "Invalid refresh token"), w)
  else
    match w.sessions.find? (fun s => s.refreshToken == presented) with
    | none => (.error (.unauthorized "Session not found"), w)
    | some session =>
      if session.userId ≠ userId ∨ session.id ≠ sessionId then
        (.error (.unauthorized "Session mismatch"), w)
      else if session.status ≠ SessionStatus.active then
        (.error (.unauthorized "Session is not active"), w)
      else
        match createAccessToken env userId session.id nowMs w with
        | (.error e, w2) => (.error e, w2)
        | (.ok newAccessToken, w2) =>
          match createRefreshToken env userId session.id nowMs w2 with
          | (.error e, w3) => (.error e, w3)
          | (.ok newRefreshToken, w3) =>
            let db1 := w3.sessions.map (fun s =>
              if s.id == session.id then
                { s with expiresAt := nowMs + env.accessTTLms, refreshedAt := nowMs }
              else s)
            let db2 := db1.map (fun s =>
              if s.id == session.id then { s with token := newAccessToken } else s)
            let db3 := db2.map (fun s =>
              if s.id == session.id then { s with refreshToken := newRefreshToken } else s)
            (.ok (newAccessToken, newRefreshToken, session),
              { w3 with sessions := db3 })

/-- `refreshTokens(refreshToken)`: the body runs inside `executeTransaction`, so
an aborting error rolls the `sessions` table back to its state at entry; the
redis key store is outside the transaction and keeps whatever the body wrote. -/
def refreshTokens (env : Env) (presented : Jwt) (nowMs : Nat) (w : World) :
    Except Err (Jwt × Jwt × Session) × World :=
  match refreshTokensTx env presented nowMs w with
  | (.ok res, w2) => (.ok res, w2)
  | (.error e, w2) => (.error e, { w2 with sessions := w.sessions })

/-- The truthiness test the first `refreshTokens` guard applies to the
verification result (`!isValid || !userId || !sessionId` negated): the refresh
token verified and carried non-empty subject and session claims. -/
def refreshVerifiedOk (env : Env) (presented : Jwt) (nowMs : Nat) (w : World) :
    Prop :=
  (validateRefreshToken env w.store presented (nowMs / 1000)).isValid = true ∧
    (validateRefreshToken env w.store presented (nowMs / 1000)).userId.getD "" ≠ "" ∧
    (validateRefreshToken env w.store presented (nowMs / 1000)).sessionId.getD "" ≠ ""

instance (env : Env) (presented : Jwt) (nowMs : Nat) (w : World) :
    Decidable (refreshVerifiedOk env presented nowMs w) := by
  unfold refreshVerifiedOk
  infer_instance

/-- The session-by-refresh-token lookup of the second `refreshTokens` guard. -/
def refreshFound (presented : Jwt) (w : World) : Option Session :=
  w.sessions.find? (fun s => s.refreshToken == presented)

/-! ### Interleaved execution of `ensureActiveKey` for the activation race

`ensureActiveKey` performs a sequence of individually-atomic redis operations
with suspension points between them (one per `await`).  To reason about two
concurrent callers, the function is re-expressed as a program counter over
those operations; `raceStep` executes exactly one store access of one caller,
and `runRace` drives two callers under an explicit schedule. -/

/-- Program counter of one `ensureActiveKey` caller.  `start` is the initial
`GET auth:keys:active`; the `gen*` points are the writes of the generation
branch (the pure key generation and exports happen on entry to `genSetPem`);
`loadPem`/`loadJwk` are the closing read-backs; `finished` carries the returned
`kid`. -/
inductive RacePc where
  | start
  | genSetPem
  | genSetJwk
  | genSetActive
  | genZadd
  | genTrim
  | loadPem (kid : String)
  | loadJwk (kid : String)
  | finished (kid : String)
deriving DecidableEq, Repr

/-- One `ensureActiveKey` caller: its pre-drawn `crypto.randomUUID()` value, its
pre-drawn generated key pair, and its program counter. -/
structure Racer where
  myKid : String
  myKey : Nat
  pc : RacePc
deriving DecidableEq, Repr

/-- Execute one atomic store access of one caller. -/
def raceStep (keep nowMs : Nat) (r : Racer) (st : KeyStore) : Racer × KeyStore :=
  match r.pc with
  | .start =>
    match st.activeKid with
    | some kid => ({ r with pc := .loadPem kid }, st)
    | none => ({ r with pc := .genSetPem }, st)
  | .genSetPem =>
    ({ r with pc := .genSetJwk },
      { st with pems := alistSet st.pems r.myKid (exportPKCS8 r.myKey) })
  | .genSetJwk =>
    ({ r with pc := .genSetActive },
      { st with jwks := alistSet st.jwks r.myKid (jwkOf r.myKid r.myKey) })
  | .genSetActive =>
    ({ r with pc := .genZadd }, { st with activeKid := some r.myKid })
  | .genZadd =>
    ({ r with pc := .genTrim }, st.zadd nowMs r.myKid)
  | .genTrim =>
    ({ r with pc := .loadPem r.myKid }, trimRecent keep st)
  | .loadPem kid => ({ r with pc := .loadJwk kid }, st)
  | .loadJwk kid => ({ r with pc := .finished kid }, st)
  | .finished _ => (r, st)

/-- Drive two callers under a schedule: `true` steps the first caller, `false`
the second. -/
def runRace (keep nowMs : Nat) : List Bool → Racer × Racer × KeyStore →
    Racer × Racer × KeyStore
  | [], s => s
  | b :: rest, (ra, rb, st) =>
    if b then
      let (ra2, st2) := raceStep keep nowMs ra st
      runRace keep nowMs rest (ra2, rb, st2)
    else
      let (rb2, st2) := raceStep keep nowMs rb st
      runRace keep nowMs rest (ra, rb2, st2)

/-- The `kid` a finished caller returns. -/
def returnedKid (r : Racer) : Option String :=
  match r.pc with
  | .finished kid => some kid
  | _ => none

/-- The schedule of the first-call race: both callers execute their initial
`GET auth:keys:active` before either writes, then each runs to completion. -/
def raceSchedule : List Bool :=
  [true, false] ++ List.replicate 7 true ++ List.replicate 7 false

/-! ### Iterated rotation for the retention-window property -/

/-- `R` successive `rotateKeys` calls starting from `w0`, the `i`-th executed at
time `i` (successive `Date.now()` readings, strictly increasing). -/
def rotateSeq (env : Env) (w0 : World) : Nat → World
  | 0 => w0
  | n + 1 => (rotateKeys env n (rotateSeq env w0 n)).2

/-- The key store expected after `R` rotations from the empty world: the last
`min R keep` generated keys, index window `[R - keep, R)`, with the retention
index score-ascending and the material lists newest-first. -/
def expectedStore (env : Env) (R : Nat) : KeyStore :=
  { activeKid := if R = 0 then none else some (env.uuid (R - 1)),
    pems := ((List.range' (R - env.keep) (R - (R - env.keep))).reverse).map
      (fun i => (env.uuid i, exportPKCS8 i)),
    jwks := ((List.range' (R - env.keep) (R - (R - env.keep))).reverse).map
      (fun i => (env.uuid i, jwkOf (env.uuid i) i)),
    recent := (List.range' (R - env.keep) (R - (R - env.keep))).map
      (fun i => (i, env.uuid i)),
    revoked := [] }

/-! ### Concrete instances used by the counterexamples and witnesses -/

/-- A concrete configuration: the default issuer, a 15-minute access TTL, a
30-day refresh TTL, the default retention maximum, and distinct supplies. -/
def envC : Env :=
  { issuer := "how-to-jwks", accessTTLms := 900000, refreshTTLms := 2592000000,
    keep := 5, uuid := fun n => "uuid-" ++ toString n,
    dbUuid := fun n => "dbid-" ++ toString n }

/-- The concrete configuration with a different issuer, for the
issuer-mismatch half of the round-trip property. -/
def envC2 : Env :=
  { envC with issuer := "some-other-issuer" }

/-- A concrete configuration whose `uuid` supply is injective by construction
(unary strings), with retention maximum 2, used to instantiate the rotation
property. -/
def envW : Env :=
  { issuer := "how-to-jwks", accessTTLms := 900000, refreshTTLms := 2592000000,
    keep := 2, uuid := fun n => String.mk (List.replicate n 'u'),
    dbUuid := fun n => String.mk (List.replicate n 'd') }

/-- The world after `ensureActiveKey` at time 0 from the empty world (the
deployment's first signing key). -/
def worldOne : World :=
  match ensureActiveKey envC 0 World.empty with
  | .ok (_, w) => w
  | .error _ => World.empty

/-- The access token minted in `worldOne` for subject `u1` and session `s1` at
time 1000 ms. -/
def tokenC : Jwt :=
  match createAccessToken envC "u1" "s1" 1000 worldOne with
  | (.ok t, _) => t
  | (.error _, _) => ⟨"", "", "", 0, none, "", "", 0⟩

/-- A structurally well-formed token whose signature was made with a key pair
(number 999) that the key store never generated: a forgery. -/
def forgedToken : Jwt :=
  { tokenC with sigKeyId := 999 }

/-- A placeholder token value for pre-existing session rows in concrete
worlds. -/
def dummyJwt (n : Nat) : Jwt :=
  { sub := "u", jti := "s" ++ toString n, iss := "how-to-jwks", iat := 0,
    exp := some 901000, kid := "uuid-0", alg := "RS256", sigKeyId := n }

/-- A session row for concrete worlds. -/
def rowC (n : Nat) (status : SessionStatus) : Session :=
  { id := "s" ++ toString n, userId := "u", token := dummyJwt n,
    refreshToken := dummyJwt (100 + n), status := status, expiresAt := 901000,
    createdAt := n, refreshedAt := n }

/-- A world whose user `u` holds exactly five active sessions (created at times
0..4) on top of `worldOne`'s key store. -/
def worldFive : World :=
  { worldOne with sessions := [rowC 0 .active, rowC 1 .active, rowC 2 .active,
      rowC 3 .active, rowC 4 .active] }

/-! ### Basic lemmas -/

theorem importPKCS8_exportPKCS8 (n : Nat) : importPKCS8 (exportPKCS8 n) = .ok n := by
  simp [importPKCS8, exportPKCS8]

theorem parseTimespanChars_cons (c : Char) (rest : List Char)
    (h1 : c ≠ '+') (h2 : c ≠ '-') (h3 : c ≠ ' ') (h4 : c.isDigit = false) :
    parseTimespanChars (c :: rest) = none := by
  simp [parseTimespanChars, stripSign, stripOneSpace, h1, h2, h3, h4,
    List.takeWhile_cons]

theorem parseTimespan_jsDateToString (ms : Nat) :
    parseTimespan (jsDateToString ms) = none := by
  have h7 : (ms / 86400000) % 7 < 7 := Nat.mod_lt _ (by norm_num)
  unfold jsDateToString
  revert h7
  generalize (ms / 86400000) % 7 = i
  intro h7
  interval_cases i <;>
    · simp only [weekdayNames, List.getD, List.getElem?_cons_zero,
        List.getElem?_cons_succ, Option.getD_some]
      show parseTimespanChars _ = none
      rw [show ∀ a b : String, (a ++ b).data = a.data ++ b.data from fun a b => rfl]
      exact parseTimespanChars_cons _ _ (by decide) (by decide) (by decide) (by decide)

theorem expClaim_jsDate (ms nowMs : Nat) :
    expClaim (.str (jsDateToString ms)) nowMs =
      .error (.typeError "Invalid time period format") := by
  simp [expClaim, parseTimespan_jsDateToString]

theorem createRefreshToken_fails (env : Env) (userId sessionId : String)
    (nowMs : Nat) (w : World) :
    ∃ e, (createRefreshToken env userId sessionId nowMs w).1 = .error e := by
  unfold createRefreshToken
  cases h : getActivePrivateKeyAndKid env nowMs w with
  | error e => exact ⟨e, by simp⟩
  | ok p =>
    refine ⟨.typeError "Invalid time period format", ?_⟩
    simp [signJWT, expClaim_jsDate]

theorem ensureActiveKey_sessions (env : Env) (nowMs : Nat) (w : World)
    {info : ActiveKeyInfo} {w2 : World}
    (h : ensureActiveKey env nowMs w = .ok (info, w2)) : w2.sessions = w.sessions := by
  unfold ensureActiveKey at h
  split at h
  · split at h
    · exact absurd h (by simp)
    · simp only [Except.ok.injEq, Prod.mk.injEq] at h
      rw [← h.2]
  · dsimp only at h
    split at h
    · exact absurd h (by simp)
    · simp only [Except.ok.injEq, Prod.mk.injEq] at h
      rw [← h.2]

theorem getActivePrivateKeyAndKid_sessions (env : Env) (nowMs : Nat) (w : World)
    {p : Option Nat × String} {w2 : World}
    (h : getActivePrivateKeyAndKid env nowMs w = .ok (p, w2)) :
    w2.sessions = w.sessions := by
  unfold getActivePrivateKeyAndKid at h
  split at h
  · split at h
    · exact absurd h (by simp)
    · rename_i heq
      simp only [Except.ok.injEq, Prod.mk.injEq] at h
      rw [← h.2]
      exact ensureActiveKey_sessions env nowMs w heq
  · split at h
    · exact absurd h (by simp)
    · simp only [Except.ok.injEq, Prod.mk.injEq] at h
      rw [← h.2]

theorem createAccessToken_sessions (env : Env) (userId sessionId : String)
    (nowMs : Nat) (w : World) :
    (createAccessToken env userId sessionId nowMs w).2.sessions = w.sessions := by
  unfold createAccessToken
  split
  · rfl
  · rename_i heq
    exact getActivePrivateKeyAndKid_sessions env nowMs w heq

theorem createRefreshToken_sessions (env : Env) (userId sessionId : String)
    (nowMs : Nat) (w : World) :
    (createRefreshToken env userId sessionId nowMs w).2.sessions = w.sessions := by
  unfold createRefreshToken
  split
  · rfl
  · rename_i heq
    exact getActivePrivateKeyAndKid_sessions env nowMs w heq

theorem foldl_olderOf_mem (l : List Session) (acc : Option Session) (s : Session)
    (h : l.foldl olderOf acc = some s) : acc = some s ∨ s ∈ l := by
  induction l generalizing acc with
  | nil => exact .inl h
  | cons x t ih =>
    rcases ih (olderOf acc x) h with h2 | h2
    · unfold olderOf at h2
      cases acc with
      | none =>
        right
        dsimp only at h2
        simp only [Option.some.injEq] at h2
        simp [h2]
      | some b =>
        dsimp only at h2
        by_cases hlt : x.createdAt < b.createdAt
        · right
          rw [if_pos hlt] at h2
          simp only [Option.some.injEq] at h2
          simp [h2]
        · left
          rw [if_neg hlt] at h2
          exact h2
    · exact .inr (List.mem_cons_of_mem x h2)

theorem olderOf_isSome (acc : Option Session) (s : Session) :
    (olderOf acc s).isSome := by
  unfold olderOf
  cases acc with
  | none => rfl
  | some b =>
    dsimp only
    split <;> rfl

theorem foldl_olderOf_isSome (l : List Session) (acc : Option Session)
    (h : acc.isSome ∨ l ≠ []) : (l.foldl olderOf acc).isSome := by
  induction l generalizing acc with
  | nil =>
    rcases h with h | h
    · exact h
    · exact absurd rfl h
  | cons x t ih => exact ih (olderOf acc x) (.inl (olderOf_isSome acc x))

theorem findOldestActive_mem (uid : String) (db : List Session) (s : Session)
    (h : findOldestActive uid db = some s) :
    s ∈ db ∧ s.userId = uid ∧ s.status = SessionStatus.active := by
  unfold findOldestActive at h
  rcases foldl_olderOf_mem _ _ _ h with h2 | h2
  · exact absurd h2 (by simp)
  · have := List.mem_filter.mp h2
    refine ⟨this.1, ?_, ?_⟩
    · have := this.2
      simp only [Bool.and_eq_true, beq_iff_eq] at this
      exact this.1
    · have := this.2
      simp only [Bool.and_eq_true, beq_iff_eq] at this
      exact this.2

theorem findOldestActive_isSome (uid : String) (db : List Session)
    (h : 0 < countActiveSessions uid db) : (findOldestActive uid db).isSome := by
  unfold findOldestActive
  refine foldl_olderOf_isSome _ _ (.inr ?_)
  intro hnil
  unfold countActiveSessions at h
  rw [hnil] at h
  simp at h

theorem countActive_revokeSessionIn (uid : String) (db : List Session) (s : Session)
    (hmem : s ∈ db) (hids : (db.map Session.id).Nodup)
    (huid : s.userId = uid) (hact : s.status = SessionStatus.active) :
    countActiveSessions uid (revokeSessionIn s.id db) + 1 =
      countActiveSessions uid db := by
  induction db with
  | nil => exact absurd hmem (by simp)
  | cons a t ih =>
    simp only [List.map_cons, List.nodup_cons, List.mem_map] at hids
    rcases List.mem_cons.mp hmem with rfl | hmem2
    · have ht : t.map (fun x =>
          if x.id == s.id then { x with status := SessionStatus.revoked } else x) = t := by
        rw [show t.map (fun x =>
            if x.id == s.id then { x with status := SessionStatus.revoked } else x)
            = t.map id from ?_, List.map_id]
        refine List.map_congr_left (fun x hx => ?_)
        have hne : x.id ≠ s.id := fun hcontra => hids.1 ⟨x, hx, hcontra⟩
        simp [hne]
      unfold revokeSessionIn
      rw [List.map_cons, ht]
      simp only [countActiveSessions, List.filter_cons]
      simp [huid, hact]
    · have hne : a.id ≠ s.id := by
        intro hcontra
        exact hids.1 ⟨s, hmem2, (hcontra.symm : s.id = a.id)⟩
      unfold revokeSessionIn
      rw [List.map_cons]
      rw [if_neg (by simp [hne])]
      have ihx := ih hmem2 hids.2
      unfold countActiveSessions at ihx ⊢
      unfold revokeSessionIn at ihx
      simp only [List.filter_cons]
      by_cases hp : (a.userId == uid && a.status == SessionStatus.active) = true
      · rw [if_pos hp, if_pos hp]
        simp only [List.length_cons]
        omega
      · rw [if_neg hp, if_neg hp]
        exact ihx

theorem countActive_revokeOldest (uid : String) (db : List Session)
    (hids : (db.map Session.id).Nodup) (h : 0 < countActiveSessions uid db) :
    countActiveSessions uid (revokeOldestSession uid db) + 1 =
      countActiveSessions uid db := by
  obtain ⟨s, hs⟩ := Option.isSome_iff_exists.mp (findOldestActive_isSome uid db h)
  obtain ⟨hmem, huid, hact⟩ := findOldestActive_mem uid db s hs
  unfold revokeOldestSession
  rw [hs]
  exact countActive_revokeSessionIn uid db s hmem hids huid hact

theorem revokeSessionIn_map_id (sid : String) (db : List Session) :
    (revokeSessionIn sid db).map Session.id = db.map Session.id := by
  unfold revokeSessionIn
  rw [List.map_map]
  refine List.map_congr_left (fun x _ => ?_)
  simp only [Function.comp_apply]
  split <;> rfl

theorem revokeOldestSession_map_id (uid : String) (db : List Session) :
    (revokeOldestSession uid db).map Session.id = db.map Session.id := by
  unfold revokeOldestSession
  split
  · rfl
  · exact revokeSessionIn_map_id _ _

theorem refreshTokensTx_fails (env : Env) (presented : Jwt) (nowMs : Nat)
    (w : World) : ∃ e, (refreshTokensTx env presented nowMs w).1 = .error e := by
  unfold refreshTokensTx
  dsimp only
  repeat' split
  all_goals try exact ⟨_, rfl⟩
  all_goals
    rename_i hok
    obtain ⟨e, he⟩ := createRefreshToken_fails env _ _ nowMs _
    rw [hok] at he
    exact absurd he (by simp)

theorem refreshTokens_sessions (env : Env) (presented : Jwt) (nowMs : Nat)
    (w : World) : (refreshTokens env presented nowMs w).2.sessions = w.sessions := by
  obtain ⟨e, he⟩ := refreshTokensTx_fails env presented nowMs w
  unfold refreshTokens
  cases hp : refreshTokensTx env presented nowMs w with
  | mk r w2 =>
    rw [hp] at he
    simp only at he
    rw [he]

theorem createUserSession_at_ceiling (env : Env) (userId : String) (nowMs : Nat)
    (w : World)
    (hceil : MAX_CONCURRENT_SESSIONS ≤ countActiveSessions userId w.sessions) :
    (∃ e, (createUserSession env userId nowMs w).1 = .error e) ∧
      (createUserSession env userId nowMs w).2.sessions =
        revokeOldestSession userId w.sessions := by
  unfold createUserSession
  dsimp only
  rw [if_pos hceil]
  split
  · rename_i e w3 heq
    refine ⟨⟨e, rfl⟩, ?_⟩
    have hs := congrArg (fun p => p.2.sessions) heq
    dsimp only at hs
    rw [createAccessToken_sessions] at hs
    exact hs.symm
  · rename_i tok w3 heq
    have hs := congrArg (fun p => p.2.sessions) heq
    dsimp only at hs
    rw [createAccessToken_sessions] at hs
    split
    · rename_i e w5 heq2
      refine ⟨⟨e, rfl⟩, ?_⟩
      have hs2 := congrArg (fun p => p.2.sessions) heq2
      dsimp only at hs2
      rw [createRefreshToken_sessions] at hs2
      dsimp only at hs hs2
      rw [← hs2, ← hs]
    · rename_i tok2 w5 heq2
      obtain ⟨e, he⟩ := createRefreshToken_fails env userId _ nowMs _
      rw [heq2] at he
      exact absurd he (by simp)

theorem ensureActiveKey_empty (env : Env) (t : Nat) (hkeep : 1 ≤ env.keep) :
    ensureActiveKey env t World.empty =
      .ok (⟨env.uuid 0, some 0, some (jwkOf (env.uuid 0) 0)⟩,
        ⟨⟨some (env.uuid 0), [(env.uuid 0, exportPKCS8 0)],
          [(env.uuid 0, jwkOf (env.uuid 0) 0)], [(t, env.uuid 0)], []⟩, [], 1, 1, 0⟩) := by
  have hno : ¬ (1 > env.keep) := by omega
  simp [ensureActiveKey, World.empty, KeyStore.empty, KeyStore.zadd, zinsert,
    trimRecent, loadActiveKeyInfo, alistGet, alistSet, importPKCS8_exportPKCS8, hno]

theorem createAccessToken_active (env : Env) (sub sid : String) (nowMs : Nat)
    (w : World) (k : String) (n : Nat)
    (hact : w.store.activeKid = some k)
    (hpem : alistGet w.store.pems k = some (exportPKCS8 n)) :
    createAccessToken env sub sid nowMs w =
      (.ok ⟨sub, sid, env.issuer, nowMs / 1000, some (nowMs + env.accessTTLms),
        k, "RS256", n⟩, w) := by
  unfold createAccessToken getActivePrivateKeyAndKid
  rw [hact]
  dsimp only
  rw [hpem]
  simp [importPKCS8opt, importPKCS8_exportPKCS8, signJWT, expClaim]

theorem alistGet_alistDel {α : Type} (l : List (String × α)) (k : String) :
    alistGet (alistDel l k) k = none := by
  induction l with
  | nil => rfl
  | cons p t ih =>
    unfold alistDel at ih ⊢
    unfold alistGet at ih ⊢
    by_cases hp : p.1 = k
    · simp only [List.filter_cons]
      rw [if_neg (by simp [hp])]
      exact ih
    · simp only [List.filter_cons]
      rw [if_pos (by simp [hp])]
      simp only [List.find?_cons]
      rw [show (p.1 == k) = false from by simp [hp]]
      dsimp only
      exact ih

/-! ### Claim theorems -/

/-- C1: the claim says every session produced by `createUserSession` is keyed by
the same single freshly generated identifier that both minted tokens carry as
`jti`.  In the code, the access token's `jti` and the refresh token's `jti` are
two separate `crypto.randomUUID()` draws, the inserted row's `id` is a third,
database-generated value — and the call in fact never produces a session at
all, because minting the refresh token always throws (`Date#toString` text is
handed to jose's time-span grammar).  Evaluating the code at a concrete input:
session creation errors and no session row is inserted. -/
theorem createUserSession_failing_run :
    (createUserSession envC "user1" 1000 World.empty).1 =
        .error (.typeError "Invalid time period format") ∧
      (createUserSession envC "user1" 1000 World.empty).2.sessions = [] := by
  exact ⟨rfl, rfl⟩

/-- C3: the claim says access tokens carry expiry `now + accessTTL` and refresh
tokens carry expiry `now + refreshTTL`.  Evaluating the code at `now = 1000` ms
with a 900000 ms access TTL: the refresh-token mint throws `TypeError` (jose's
`setExpirationTime` receives a `Date#toString` text, which its time-span
grammar rejects), and the access token's seconds-valued `exp` claim holds the
raw millisecond sum 901000 rather than the epoch second 901 at which
`now + accessTTL` falls. -/
theorem mintedExpiry_failing_run :
    (createRefreshToken envC "u1" "s1" 1000 worldOne).1 =
        .error (.typeError "Invalid time period format") ∧
      (createAccessToken envC "u1" "s1" 1000 worldOne).1 = .ok tokenC ∧
      tokenC.exp = some 901000 ∧
      (1000 + envC.accessTTLms) / 1000 = 901 ∧ (901000 : Nat) ≠ 901 := by
  exact ⟨rfl, rfl, rfl, rfl, by decide⟩

/-- C2 counterexample: the claim asserts a minted token "fails verification once
its expiry (now + accessTTL) has elapsed".  The token minted at 1000 ms with a
900000 ms TTL has its claimed expiry instant at epoch second 901; verification
at epoch second 902 — past that instant — still succeeds, because the code
stored the millisecond sum 901000 in the seconds-valued `exp` claim. -/
theorem roundTrip_expiry_counterexample :
    1000 + envC.accessTTLms ≤ 902 * 1000 ∧
      (createAccessToken envC "u1" "s1" 1000 worldOne).1 = .ok tokenC ∧
      validateAccessToken envC (some worldOne.store) tokenC 902 =
        ⟨some "u1", some "s1", true⟩ := by
  exact ⟨by decide, rfl, rfl⟩

/-- C2 (amended): a token signed with the active key established by
`ensureActiveKey` verifies successfully immediately after minting, yielding the
original subject and session identifier, and fails verification when the
configured issuer differs at verification time.  The expiry conjunct holds in
the corrected form the code implements: verification fails only once the
recorded `exp` value — the millisecond sum `now + accessTTL` read as epoch
seconds — has been reached, not at the instant `now + accessTTL`. -/
theorem signVerify_roundTrip (env env2 : Env) (sub sid : String) (t nowMs : Nat)
    (info : ActiveKeyInfo) (w w2 : World) (tok : Jwt)
    (hkeep : 1 ≤ env.keep) (hkeep2 : 1 ≤ env2.keep)
    (hsub : sub ≠ "") (hsid : sid ≠ "") (httl : 0 < env.accessTTLms)
    (hiss : env2.issuer ≠ env.issuer)
    (hens : ensureActiveKey env t World.empty = .ok (info, w))
    (hmint : createAccessToken env sub sid nowMs w = (.ok tok, w2)) :
    validateAccessToken env (some w2.store) tok (nowMs / 1000) =
        ⟨some sub, some sid, true⟩ ∧
      validateAccessToken env2 (some w2.store) tok (nowMs / 1000) =
        ⟨none, none, false⟩ ∧
      ∀ later : Nat, nowMs + env.accessTTLms ≤ later →
        validateAccessToken env (some w2.store) tok later = ⟨none, none, false⟩ := by
  rw [ensureActiveKey_empty env t hkeep] at hens
  simp only [Except.ok.injEq, Prod.mk.injEq] at hens
  obtain ⟨hinfo, hw⟩ := hens
  subst hw
  rw [createAccessToken_active env sub sid nowMs _ (env.uuid 0) 0 rfl
    (by simp [alistGet])] at hmint
  simp only [Prod.mk.injEq, Except.ok.injEq] at hmint
  obtain ⟨htok, hw2⟩ := hmint
  subst htok
  subst hw2
  obtain ⟨m, hm⟩ : ∃ m, env.keep = m + 1 := ⟨env.keep - 1, by omega⟩
  obtain ⟨m2, hm2⟩ : ∃ m2, env2.keep = m2 + 1 := ⟨env2.keep - 1, by omega⟩
  have hexp : ¬ (nowMs + env.accessTTLms ≤ nowMs / 1000) := by
    have := Nat.div_le_self nowMs 1000
    omega
  have hiss2 : env.issuer ≠ env2.issuer := fun hcontra => hiss hcontra.symm
  refine ⟨?_, ?_, ?_⟩
  · simp [validateAccessToken, validateAccessTokenBody, getLocalJwkSetE, getJWKS,
      jwtVerify, alistGet, jwkOf, hm, hexp, hsub, hsid]
  · simp [validateAccessToken, validateAccessTokenBody, getLocalJwkSetE, getJWKS,
      jwtVerify, alistGet, jwkOf, hm2, hiss2]
  · intro later hlater
    simp [validateAccessToken, validateAccessTokenBody, getLocalJwkSetE, getJWKS,
      jwtVerify, alistGet, jwkOf, hm, hlater]

/-- C5 counterexample: the claim asserts `getActivePrivateKeyAndKid` still
returns present, importable private material after `revokeKey` of the currently
active `kid`.  After revoking the first deployment key — which is the active
one — the active pointer still names it, its PEM is deleted, and the call
raises instead. -/
theorem revokedActiveKey_counterexample :
    worldOne.store.activeKid = some "uuid-0" ∧
      getActivePrivateKeyAndKid envC 0 (revokeKey "uuid-0" worldOne) =
        .error (.typeError "pkcs8 must be a string") := by
  exact ⟨rfl, rfl⟩

/-- C5 (amended): while the active `kid`'s private material is present,
`getActivePrivateKeyAndKid` returns it; but `revokeKey` applied to the active
`kid` deletes the PEM while leaving the active pointer in place, after which
`getActivePrivateKeyAndKid` raises — the exactly-one-usable-signing-key
invariant holds only in states whose active key has not been revoked. -/
theorem activeKey_usability (env : Env) (nowMs : Nat) (w : World) (k : String)
    (n : Nat) (hact : w.store.activeKid = some k)
    (hpem : alistGet w.store.pems k = some (exportPKCS8 n)) :
    getActivePrivateKeyAndKid env nowMs w = .ok ((some n, k), w) ∧
      (revokeKey k w).store.activeKid = some k ∧
      alistGet (revokeKey k w).store.pems k = none ∧
      getActivePrivateKeyAndKid env nowMs (revokeKey k w) =
        .error (.typeError "pkcs8 must be a string") := by
  refine ⟨?_, ?_, ?_, ?_⟩
  · unfold getActivePrivateKeyAndKid
    rw [hact]
    dsimp only
    rw [hpem]
    simp [importPKCS8opt, importPKCS8_exportPKCS8]
  · simp [revokeKey, hact]
  · simp [revokeKey, alistGet_alistDel]
  · unfold getActivePrivateKeyAndKid
    have hact2 : (revokeKey k w).store.activeKid = some k := by
      simp [revokeKey, hact]
    rw [hact2]
    dsimp only
    have hdel : alistGet (revokeKey k w).store.pems k = none := by
      simp [revokeKey, alistGet_alistDel]
    rw [hdel]
    rfl

/-- C7: the claim says creating one more session for a user holding the ceiling
of five active sessions leaves exactly five active sessions, the oldest
revoked and the new one active.  Evaluating the code on a user with five
active sessions: the oldest is revoked, the call then throws while minting the
refresh token, no row is inserted, and only four active sessions remain. -/
theorem sessionCeiling_failing_run :
    countActiveSessions "u" worldFive.sessions = 5 ∧
      (createUserSession envC "u" 100 worldFive).1 =
        .error (.typeError "Invalid time period format") ∧
      (createUserSession envC "u" 100 worldFive).2.sessions =
        [rowC 0 .revoked, rowC 1 .active, rowC 2 .active, rowC 3 .active,
          rowC 4 .active] ∧
      countActiveSessions "u" (createUserSession envC "u" 100 worldFive).2.sessions
        = 4 := by
  exact ⟨rfl, rfl, rfl, rfl⟩

/-- C8 counterexample: the claim asserts a key-store outage during verification
propagates as a typed Internal/Transient failure distinct from the
invalid-token result.  A store outage and a forged signature produce the very
same `{null, null, false}` value. -/
theorem storeFailure_counterexample :
    validateAccessToken envC none tokenC 1 = ⟨none, none, false⟩ ∧
      validateAccessToken envC (some worldOne.store) forgedToken 1 =
        ⟨none, none, false⟩ ∧
      validateAccessToken envC none tokenC 1 =
        validateAccessToken envC (some worldOne.store) forgedToken 1 := by
  exact ⟨rfl, rfl, rfl⟩

/-- C8 (amended): `validateAccessToken`'s catch-all swallows every failure,
key-store unavailability included, and returns the same invalid result for all
of them; no store failure ever propagates to the caller. -/
theorem storeFailure_swallowed (env : Env) (token : Jwt) (nowS : Nat) :
    validateAccessToken env none token nowS = ⟨none, none, false⟩ := rfl

theorem runRace_firstCallRace (keep nowMs : Nat) (kidA kidB : String)
    (keyA keyB : Nat) (hkeep : 2 ≤ keep) (hne : kidA ≠ kidB) :
    returnedKid (runRace keep nowMs raceSchedule
        (⟨kidA, keyA, .start⟩, ⟨kidB, keyB, .start⟩, KeyStore.empty)).1 =
          some kidA ∧
      returnedKid (runRace keep nowMs raceSchedule
        (⟨kidA, keyA, .start⟩, ⟨kidB, keyB, .start⟩, KeyStore.empty)).2.1 =
          some kidB ∧
      (runRace keep nowMs raceSchedule
        (⟨kidA, keyA, .start⟩, ⟨kidB, keyB, .start⟩, KeyStore.empty)).2.2.activeKid =
          some kidB ∧
      alistGet (runRace keep nowMs raceSchedule
        (⟨kidA, keyA, .start⟩, ⟨kidB, keyB, .start⟩, KeyStore.empty)).2.2.pems kidA =
          some (exportPKCS8 keyA) ∧
      alistGet (runRace keep nowMs raceSchedule
        (⟨kidA, keyA, .start⟩, ⟨kidB, keyB, .start⟩, KeyStore.empty)).2.2.pems kidB =
          some (exportPKCS8 keyB) := by
  have hsched : raceSchedule = [true, false, true, true, true, true, true, true,
      true, false, false, false, false, false, false, false] := rfl
  have hne2 : kidB ≠ kidA := fun hcontra => hne hcontra.symm
  have h1 : ¬ (1 > keep) := by omega
  have h2 : ¬ (2 > keep) := by omega
  rw [hsched]
  by_cases hlt : kidB < kidA <;>
    simp [runRace, raceStep, KeyStore.zadd, KeyStore.empty, zinsert, trimRecent,
      alistSet, alistGet, alistDel, returnedKid, hne, hne2, hlt, h1, h2]

/-- C9 counterexample: the claim asserts that when two callers race
`ensureActiveKey` with no prior active key, exactly one key pair is generated
(via an atomic check-and-set of the pointer) and both return the same `kid`.
Under the schedule in which both callers perform their initial read before
either writes, both generate and persist a key pair, the pointer holds the
last writer's `kid`, and the two callers return different `kid`s. -/
theorem ensureActiveKey_race_counterexample :
    returnedKid (runRace 5 0 raceSchedule
        (⟨"kidA", 0, .start⟩, ⟨"kidB", 1, .start⟩, KeyStore.empty)).1 =
          some "kidA" ∧
      returnedKid (runRace 5 0 raceSchedule
        (⟨"kidA", 0, .start⟩, ⟨"kidB", 1, .start⟩, KeyStore.empty)).2.1 =
          some "kidB" ∧
      (runRace 5 0 raceSchedule
        (⟨"kidA", 0, .start⟩, ⟨"kidB", 1, .start⟩, KeyStore.empty)).2.2.activeKid =
          some "kidB" ∧
      alistGet (runRace 5 0 raceSchedule
        (⟨"kidA", 0, .start⟩, ⟨"kidB", 1, .start⟩, KeyStore.empty)).2.2.pems "kidA" =
          some (exportPKCS8 0) ∧
      alistGet (runRace 5 0 raceSchedule
        (⟨"kidA", 0, .start⟩, ⟨"kidB", 1, .start⟩, KeyStore.empty)).2.2.pems "kidB" =
          some (exportPKCS8 1) ∧
      ("kidA" : String) ≠ "kidB" := by
  have h := runRace_firstCallRace 5 0 "kidA" "kidB" 0 1 (by omega) (by decide)
  exact ⟨h.1, h.2.1, h.2.2.1, h.2.2.2.1, h.2.2.2.2, by decide⟩

/-- C9 (amended): `ensureActiveKey` reads the active pointer and later writes it
with a plain unconditional `SET`; under a first-call race in which both callers
read before either writes, each caller generates and persists its own key pair
and returns its own `kid`, the pointer ending at the last writer's `kid`. -/
theorem ensureActiveKey_race (keep nowMs : Nat) (kidA kidB : String)
    (keyA keyB : Nat) (hkeep : 2 ≤ keep) (hne : kidA ≠ kidB) :
    returnedKid (runRace keep nowMs raceSchedule
        (⟨kidA, keyA, .start⟩, ⟨kidB, keyB, .start⟩, KeyStore.empty)).1 =
          some kidA ∧
      returnedKid (runRace keep nowMs raceSchedule
        (⟨kidA, keyA, .start⟩, ⟨kidB, keyB, .start⟩, KeyStore.empty)).2.1 =
          some kidB ∧
      (runRace keep nowMs raceSchedule
        (⟨kidA, keyA, .start⟩, ⟨kidB, keyB, .start⟩, KeyStore.empty)).2.2.activeKid =
          some kidB ∧
      alistGet (runRace keep nowMs raceSchedule
        (⟨kidA, keyA, .start⟩, ⟨kidB, keyB, .start⟩, KeyStore.empty)).2.2.pems kidA =
          some (exportPKCS8 keyA) ∧
      alistGet (runRace keep nowMs raceSchedule
        (⟨kidA, keyA, .start⟩, ⟨kidB, keyB, .start⟩, KeyStore.empty)).2.2.pems kidB =
          some (exportPKCS8 keyB) :=
  runRace_firstCallRace keep nowMs kidA kidB keyA keyB hkeep hne

/-- C10: session creation is not atomic with its eviction: for a user at the
ceiling, the oldest active session is revoked first, and when a later step of
`createUserSession` fails the revocation is not rolled back — the call errors,
the oldest session stays revoked, the user is left one active session short,
and no new session row exists. -/
theorem createUserSession_eviction_not_atomic (env : Env) (userId : String)
    (nowMs : Nat) (w : World)
    (hids : (w.sessions.map Session.id).Nodup)
    (hceil : MAX_CONCURRENT_SESSIONS ≤ countActiveSessions userId w.sessions) :
    (∃ e, (createUserSession env userId nowMs w).1 = .error e) ∧
      (createUserSession env userId nowMs w).2.sessions =
        revokeOldestSession userId w.sessions ∧
      countActiveSessions userId (createUserSession env userId nowMs w).2.sessions
          + 1 = countActiveSessions userId w.sessions ∧
      (createUserSession env userId nowMs w).2.sessions.map Session.id =
        w.sessions.map Session.id := by
  obtain ⟨hfail, hsess⟩ := createUserSession_at_ceiling env userId nowMs w hceil
  refine ⟨hfail, hsess, ?_, ?_⟩
  · rw [hsess]
    refine countActive_revokeOldest userId w.sessions hids ?_
    unfold MAX_CONCURRENT_SESSIONS at hceil
    omega
  · rw [hsess]
    exact revokeOldestSession_map_id userId w.sessions

theorem filter_fst_ne_of_fresh {β : Type} (u : Nat → String) (f : Nat → β)
    (L : List Nat) (j : Nat) (hfresh : ∀ i ∈ L, u i ≠ u j) :
    (L.map (fun i => (u i, f i))).filter (fun p => p.1 ≠ u j) =
      L.map (fun i => (u i, f i)) := by
  rw [List.filter_eq_self]
  intro a ha
  obtain ⟨i, hiL, rfl⟩ := List.mem_map.mp ha
  simpa using hfresh i hiL

theorem filter_snd_ne_of_fresh (u : Nat → String) (L : List Nat) (j : Nat)
    (hfresh : ∀ i ∈ L, u i ≠ u j) :
    (L.map (fun i => (i, u i))).filter (fun p => p.2 ≠ u j) =
      L.map (fun i => (i, u i)) := by
  rw [List.filter_eq_self]
  intro a ha
  obtain ⟨i, hiL, rfl⟩ := List.mem_map.mp ha
  simpa using hfresh i hiL

theorem zinsert_append_of_lt (score : Nat) (member : String)
    (l : List (Nat × String)) (h : ∀ p ∈ l, p.1 < score) :
    zinsert score member l = l ++ [(score, member)] := by
  induction l with
  | nil => rfl
  | cons p t ih =>
    obtain ⟨s, m⟩ := p
    have hp := h (s, m) (List.mem_cons_self _ _)
    simp only at hp
    unfold zinsert
    rw [if_neg (by push_neg; exact ⟨by omega, fun heq => absurd heq (by omega)⟩)]
    rw [ih (fun q hq => h q (List.mem_cons_of_mem _ hq))]
    rfl

theorem mem_range1 {m s n : Nat} (h : m ∈ List.range' s n) : s ≤ m ∧ m < s + n := by
  rw [List.mem_range'] at h
  obtain ⟨i, hi, rfl⟩ := h
  omega

theorem rotateKeys_expected (env : Env) (hinj : Function.Injective env.uuid)
    (hkeep : 1 ≤ env.keep) (R : Nat) (s : List Session) (d : Nat) :
    rotateKeys env R ⟨expectedStore env R, s, R, R, d⟩ =
      ((env.uuid R, R), ⟨expectedStore env (R + 1), s, R + 1, R + 1, d⟩) := by
  have hu : ∀ i, i < R → env.uuid i ≠ env.uuid R := fun i hi hcontra =>
    absurd (hinj hcontra) (by omega)
  unfold rotateKeys expectedStore
  dsimp only
  unfold alistSet KeyStore.zadd trimRecent
  dsimp only
  have hfP : ((List.range' (R - env.keep) (R - (R - env.keep))).reverse.map
      (fun i => (env.uuid i, exportPKCS8 i))).filter (fun p => p.1 ≠ env.uuid R)
      = (List.range' (R - env.keep) (R - (R - env.keep))).reverse.map
        (fun i => (env.uuid i, exportPKCS8 i)) :=
    filter_fst_ne_of_fresh env.uuid _ _ R (fun i hi => by
      rw [List.mem_reverse] at hi
      exact hu i (by have := mem_range1 hi; omega))
  have hfJ : ((List.range' (R - env.keep) (R - (R - env.keep))).reverse.map
      (fun i => (env.uuid i, jwkOf (env.uuid i) i))).filter
        (fun p => p.1 ≠ env.uuid R)
      = (List.range' (R - env.keep) (R - (R - env.keep))).reverse.map
        (fun i => (env.uuid i, jwkOf (env.uuid i) i)) :=
    filter_fst_ne_of_fresh env.uuid _ _ R (fun i hi => by
      rw [List.mem_reverse] at hi
      exact hu i (by have := mem_range1 hi; omega))
  have hfZ : ((List.range' (R - env.keep) (R - (R - env.keep))).map
      (fun i => (i, env.uuid i))).filter (fun p => p.2 ≠ env.uuid R)
      = (List.range' (R - env.keep) (R - (R - env.keep))).map
        (fun i => (i, env.uuid i)) :=
    filter_snd_ne_of_fresh env.uuid _ R (fun i hi => by
      exact hu i (by have := mem_range1 hi; omega))
  have hzi : zinsert R (env.uuid R)
      ((List.range' (R - env.keep) (R - (R - env.keep))).map (fun i => (i, env.uuid i)))
      = (List.range' (R - env.keep) (R - (R - env.keep))).map (fun i => (i, env.uuid i))
        ++ [(R, env.uuid R)] :=
    zinsert_append_of_lt R (env.uuid R) _ (fun p hp => by
      obtain ⟨i, hi, rfl⟩ := List.mem_map.mp hp
      have := mem_range1 hi
      simp only
      omega)
  rw [hfP, hfJ, hfZ, hzi]
  simp only [List.length_append, List.length_map, List.length_range',
    List.length_cons, List.length_nil, Nat.zero_add]
  by_cases hRK : R < env.keep
  · have hlo : R - env.keep = 0 := by omega
    have hlo1 : R + 1 - env.keep = 0 := by omega
    rw [hlo, hlo1]
    simp only [Nat.sub_zero]
    rw [if_neg (by omega)]
    have hconcat := List.range'_1_concat 0 R
    simp only [Nat.zero_add] at hconcat
    simp [hconcat, List.reverse_append]
  · obtain ⟨k1, hk1⟩ : ∃ k1, env.keep = k1 + 1 := ⟨env.keep - 1, by omega⟩
    rw [hk1] at hRK ⊢
    have hlen : R - (R - (k1 + 1)) = k1 + 1 := by omega
    have hlo1 : R + 1 - (k1 + 1) = R - (k1 + 1) + 1 := by omega
    have hlen1 : R + 1 - (R - (k1 + 1) + 1) = k1 + 1 := by omega
    rw [hlen, hlo1, hlen1]
    rw [if_pos (by omega)]
    have hulo : ∀ i, R - (k1 + 1) < i → i ≤ R →
        env.uuid i ≠ env.uuid (R - (k1 + 1)) := fun i hi1 hi2 hcontra =>
      absurd (hinj hcontra) (by omega)
    have hsplit : List.range' (R - (k1 + 1)) (k1 + 1)
        = (R - (k1 + 1)) :: List.range' (R - (k1 + 1) + 1) k1 :=
      List.range'_succ _ _ _
    have hconcat : List.range' (R - (k1 + 1) + 1) (k1 + 1)
        = List.range' (R - (k1 + 1) + 1) k1 ++ [R] := by
      rw [List.range'_1_concat]
      congr 2
      omega
    have htake : (((R - (k1 + 1)) :: List.range' (R - (k1 + 1) + 1) k1).map
        (fun i => (i, env.uuid i)) ++ [(R, env.uuid R)]).take (k1 + 1 + 1 - (k1 + 1))
        = [(R - (k1 + 1), env.uuid (R - (k1 + 1)))] := by
      have h1 : k1 + 1 + 1 - (k1 + 1) = 1 := by omega
      rw [h1]
      simp
    rw [hsplit, htake]
    dsimp only [List.map_cons, List.map_nil, List.foldl]
    have hdelP : alistDel ((env.uuid R, exportPKCS8 R) ::
        List.map (fun i => (env.uuid i, exportPKCS8 i))
          ((R - (k1 + 1)) :: List.range' (R - (k1 + 1) + 1) k1).reverse)
          (env.uuid (R - (k1 + 1)))
        = (env.uuid R, exportPKCS8 R) ::
          List.map (fun i => (env.uuid i, exportPKCS8 i))
            (List.range' (R - (k1 + 1) + 1) k1).reverse := by
      unfold alistDel
      rw [List.reverse_cons, List.map_append, List.filter_cons, List.filter_append]
      rw [filter_fst_ne_of_fresh env.uuid _ _ (R - (k1 + 1)) (fun i hi => by
        rw [List.mem_reverse] at hi
        have := mem_range1 hi
        exact hulo i (by omega) (by omega))]
      have hR : env.uuid R ≠ env.uuid (R - (k1 + 1)) := hulo R (by omega) (by omega)
      simp [hR]
    have hdelJ : alistDel ((env.uuid R, jwkOf (env.uuid R) R) ::
        List.map (fun i => (env.uuid i, jwkOf (env.uuid i) i))
          ((R - (k1 + 1)) :: List.range' (R - (k1 + 1) + 1) k1).reverse)
          (env.uuid (R - (k1 + 1)))
        = (env.uuid R, jwkOf (env.uuid R) R) ::
          List.map (fun i => (env.uuid i, jwkOf (env.uuid i) i))
            (List.range' (R - (k1 + 1) + 1) k1).reverse := by
      unfold alistDel
      rw [List.reverse_cons, List.map_append, List.filter_cons, List.filter_append]
      rw [filter_fst_ne_of_fresh env.uuid _ _ (R - (k1 + 1)) (fun i hi => by
        rw [List.mem_reverse] at hi
        have := mem_range1 hi
        exact hulo i (by omega) (by omega))]
      have hR : env.uuid R ≠ env.uuid (R - (k1 + 1)) := hulo R (by omega) (by omega)
      simp [hR]
    have hdelZ : (((R - (k1 + 1), env.uuid (R - (k1 + 1))) ::
        List.map (fun i => (i, env.uuid i)) (List.range' (R - (k1 + 1) + 1) k1)
          ++ [(R, env.uuid R)]).filter
          (fun p => p.2 ≠ env.uuid (R - (k1 + 1))))
        = List.map (fun i => (i, env.uuid i)) (List.range' (R - (k1 + 1) + 1) k1)
          ++ [(R, env.uuid R)] := by
      rw [List.cons_append, List.filter_cons, List.filter_append]
      rw [filter_snd_ne_of_fresh env.uuid _ (R - (k1 + 1)) (fun i hi => by
        have := mem_range1 hi
        exact hulo i (by omega) (by omega))]
      have hR : env.uuid R ≠ env.uuid (R - (k1 + 1)) := hulo R (by omega) (by omega)
      simp [hR]
    rw [hdelP, hdelJ, hdelZ]
    rw [hconcat]
    simp [List.reverse_append]

theorem rotateSeq_spec (env : Env) (hinj : Function.Injective env.uuid)
    (hkeep : 1 ≤ env.keep) (R : Nat) :
    rotateSeq env World.empty R = ⟨expectedStore env R, [], R, R, 0⟩ := by
  induction R with
  | zero =>
    simp [rotateSeq, World.empty, KeyStore.empty, expectedStore, Nat.zero_sub]
  | succ R ih =>
    simp only [rotateSeq]
    rw [ih, rotateKeys_expected env hinj hkeep R [] 0]

theorem alistGet_map_of_mem (u : Nat → String) {β : Type} (f : Nat → β)
    (hinj : Function.Injective u) (L : List Nat) (i : Nat) (hi : i ∈ L) :
    alistGet (L.map (fun j => (u j, f j))) (u i) = some (f i) := by
  induction L with
  | nil => exact absurd hi (by simp)
  | cons j t ih =>
    unfold alistGet at ih ⊢
    simp only [List.map_cons, List.find?_cons]
    by_cases hji : (u j == u i) = true
    · have hj : j = i := hinj (by simpa using hji)
      subst hj
      rw [hji]
      rfl
    · rw [Bool.not_eq_true] at hji
      rw [hji]
      dsimp only
      refine ih ?_
      rcases List.mem_cons.mp hi with rfl | h
      · exact absurd hji (by simp)
      · exact h

theorem alistGet_map_of_fresh (u : Nat → String) {β : Type} (f : Nat → β)
    (L : List Nat) (x : String) (hfresh : ∀ j ∈ L, u j ≠ x) :
    alistGet (L.map (fun j => (u j, f j))) x = none := by
  induction L with
  | nil => rfl
  | cons j t ih =>
    unfold alistGet at ih ⊢
    simp only [List.map_cons, List.find?_cons]
    rw [show (u j == x) = false from by
      simpa using hfresh j (List.mem_cons_self _ _)]
    dsimp only
    exact ih (fun q hq => hfresh q (List.mem_cons_of_mem _ hq))

theorem refreshTokens_fst (env : Env) (presented : Jwt) (nowMs : Nat) (w : World) :
    (refreshTokens env presented nowMs w).1 =
      (refreshTokensTx env presented nowMs w).1 := by
  unfold refreshTokens
  cases h : refreshTokensTx env presented nowMs w with
  | mk r w2 => cases r <;> simp

/-- C4: each of the four `refreshTokens` preconditions — refresh token
verifies, session found by refresh-token value, owning user and identifier
match the verified claims, status `active` — aborts the whole operation with an
`UnauthorizedError` when it fails, and the session store is never mutated by
the call (the transaction rolls back on every abort; the success path itself
always dies minting the refresh token, so a mutated store would imply all four
preconditions held). -/
theorem refreshTokens_guards (env : Env) (presented : Jwt) (nowMs : Nat)
    (w : World) :
    (refreshTokens env presented nowMs w).2.sessions = w.sessions ∧
      (¬ refreshVerifiedOk env presented nowMs w →
        (refreshTokens env presented nowMs w).1 =
          .error (.unauthorized "Invalid refresh token")) ∧
      (refreshVerifiedOk env presented nowMs w →
        refreshFound presented w = none →
        (refreshTokens env presented nowMs w).1 =
          .error (.unauthorized "Session not found")) ∧
      (∀ session : Session, refreshVerifiedOk env presented nowMs w →
        refreshFound presented w = some session →
        (session.userId ≠
            (validateRefreshToken env w.store presented (nowMs / 1000)).userId.getD ""
          ∨ session.id ≠
            (validateRefreshToken env w.store presented (nowMs / 1000)).sessionId.getD "") →
        (refreshTokens env presented nowMs w).1 =
          .error (.unauthorized "Session mismatch")) ∧
      (∀ session : Session, refreshVerifiedOk env presented nowMs w →
        refreshFound presented w = some session →
        session.userId =
          (validateRefreshToken env w.store presented (nowMs / 1000)).userId.getD "" →
        session.id =
          (validateRefreshToken env w.store presented (nowMs / 1000)).sessionId.getD "" →
        session.status ≠ SessionStatus.active →
        (refreshTokens env presented nowMs w).1 =
          .error (.unauthorized "Session is not active")) := by
  rcases hval : validateRefreshToken env w.store presented (nowMs / 1000) with
    ⟨uid, sid, v⟩
  refine ⟨refreshTokens_sessions env presented nowMs w, ?_, ?_, ?_, ?_⟩
  · intro hnv
    unfold refreshVerifiedOk at hnv
    rw [hval] at hnv
    dsimp only at hnv
    rw [refreshTokens_fst]
    unfold refreshTokensTx
    rw [hval]
    dsimp only
    have hC : v = false ∨ uid.getD "" = "" ∨ sid.getD "" = "" := by
      cases v with
      | false => exact .inl rfl
      | true =>
        right
        by_contra hcontra
        push_neg at hcontra
        exact hnv ⟨rfl, hcontra.1, hcontra.2⟩
    rw [if_pos hC]
  · intro hv hfound
    unfold refreshVerifiedOk at hv
    rw [hval] at hv
    dsimp only at hv
    unfold refreshFound at hfound
    rw [refreshTokens_fst]
    unfold refreshTokensTx
    rw [hval]
    dsimp only
    obtain ⟨hv1, hv2, hv3⟩ := hv
    rw [if_neg (by push_neg; exact ⟨by simp [hv1], hv2, hv3⟩)]
    rw [hfound]
  · intro session hv hfound hmis
    unfold refreshVerifiedOk at hv
    rw [hval] at hv
    dsimp only at hv
    unfold refreshFound at hfound
    dsimp only at hmis
    rw [refreshTokens_fst]
    unfold refreshTokensTx
    rw [hval]
    dsimp only
    obtain ⟨hv1, hv2, hv3⟩ := hv
    rw [if_neg (by push_neg; exact ⟨by simp [hv1], hv2, hv3⟩)]
    rw [hfound]
    dsimp only
    rw [if_pos hmis]
  · intro session hv hfound hu hs hstat
    unfold refreshVerifiedOk at hv
    rw [hval] at hv
    dsimp only at hv
    unfold refreshFound at hfound
    dsimp only at hu hs
    rw [refreshTokens_fst]
    unfold refreshTokensTx
    rw [hval]
    dsimp only
    obtain ⟨hv1, hv2, hv3⟩ := hv
    rw [if_neg (by push_neg; exact ⟨by simp [hv1], hv2, hv3⟩)]
    rw [hfound]
    dsimp only
    rw [if_neg (by push_neg; exact ⟨hu, hs⟩)]
    rw [if_pos hstat]

/-- C6: after `R` successive rotations of a fresh deployment with retention
maximum `M = env.keep` (`R > M ≥ 1`), the published verification key set
consists of exactly the `M` most recently created keys, most-recent first, and
the private material of every earlier, evicted key has been deleted from the
key store. -/
theorem rotation_retention_window (env : Env) (R : Nat)
    (hinj : Function.Injective env.uuid) (hkeep : 1 ≤ env.keep)
    (hR : env.keep < R) :
    getJWKS env.keep (rotateSeq env World.empty R).store
        = ((List.range' (R - env.keep) env.keep).reverse).map
            (fun i => jwkOf (env.uuid i) i) ∧
      ∀ i, i < R - env.keep →
        alistGet (rotateSeq env World.empty R).store.pems (env.uuid i) = none := by
  rw [rotateSeq_spec env hinj hkeep R]
  have hlen : R - (R - env.keep) = env.keep := by omega
  constructor
  · unfold getJWKS expectedStore
    dsimp only
    rw [hlen]
    rw [← List.map_reverse]
    rw [List.take_of_length_le (by simp)]
    rw [List.map_map]
    simp only [List.contains_nil, Bool.false_eq_true, if_false]
    have key : ∀ kids : List Nat,
        (∀ i ∈ kids, i ∈ List.range' (R - env.keep) env.keep) →
        (kids.map (fun i => ((fun p : Nat × String => p.2) ∘
            (fun i => (i, env.uuid i))) i)).filterMap (fun kid =>
          alistGet ((List.range' (R - env.keep) env.keep).reverse.map
            (fun i => (env.uuid i, jwkOf (env.uuid i) i))) kid)
        = kids.map (fun i => jwkOf (env.uuid i) i) := by
      intro kids
      induction kids with
      | nil => intro _; rfl
      | cons j t iht =>
        intro hsub
        simp only [List.map_cons, List.filterMap_cons, Function.comp_apply] at iht ⊢
        rw [alistGet_map_of_mem env.uuid _ hinj _ j
          (List.mem_reverse.mpr (hsub j (List.mem_cons_self _ _)))]
        dsimp only
        rw [iht (fun q hq => hsub q (List.mem_cons_of_mem _ hq))]
    exact key (List.range' (R - env.keep) env.keep).reverse
      (fun i hi => List.mem_reverse.mp hi)
  · intro i hi
    unfold expectedStore
    dsimp only
    rw [hlen]
    exact alistGet_map_of_fresh env.uuid _ _ _ (fun j hj hcontra => by
      rw [List.mem_reverse] at hj
      have := mem_range1 hj
      exact absurd (hinj hcontra) (by omega))

theorem envW_uuid_injective : Function.Injective envW.uuid := by
  intro a b h
  have h2 := congrArg (fun s : String => s.data.length) h
  simpa [envW] using h2

/-! ### Witnesses -/

/-- Witness for `signVerify_roundTrip`: the concrete round trip at `nowMs =
1000` on the first deployment key. -/
theorem signVerify_roundTrip_witness :
    validateAccessToken envC (some worldOne.store) tokenC (1000 / 1000) =
      ⟨some "u1", some "s1", true⟩ :=
  (signVerify_roundTrip envC envC2 "u1" "s1" 0 1000
    ⟨"uuid-0", some 0, some (jwkOf "uuid-0" 0)⟩ worldOne worldOne tokenC
    (by decide) (by decide) (by decide) (by decide) (by decide) (by decide)
    rfl rfl).1

/-- Witness for `refreshTokens_guards`: a token that fails verification makes
`refreshTokens` abort with the Unauthorized invalid-refresh-token error. -/
theorem refreshTokens_guards_witness :
    (refreshTokens envC (dummyJwt 999) 1000 worldFive).1 =
      .error (.unauthorized "Invalid refresh token") :=
  (refreshTokens_guards envC (dummyJwt 999) 1000 worldFive).2.1 (by decide)

/-- Witness for `activeKey_usability`: the first deployment key is returned
while its material is present. -/
theorem activeKey_usability_witness :
    getActivePrivateKeyAndKid envC 0 worldOne = .ok ((some 0, "uuid-0"), worldOne) :=
  (activeKey_usability envC 0 worldOne "uuid-0" 0 rfl rfl).1

/-- Witness for `rotation_retention_window`: after three rotations with
retention maximum 2, the first key's private material is gone. -/
theorem rotation_retention_window_witness :
    alistGet (rotateSeq envW World.empty 3).store.pems (envW.uuid 0) = none :=
  (rotation_retention_window envW 3 envW_uuid_injective (by decide)
    (by decide)).2 0 (by decide)

/-- Witness for `ensureActiveKey_race`: the concrete race with kids `A` and
`B`. -/
theorem ensureActiveKey_race_witness :
    returnedKid (runRace 5 0 raceSchedule
        (⟨"A", 7, .start⟩, ⟨"B", 8, .start⟩, KeyStore.empty)).1 = some "A" :=
  (ensureActiveKey_race 5 0 "A" "B" 7 8 (by decide) (by decide)).1

/-- Witness for `createUserSession_eviction_not_atomic`: the concrete user with
five active sessions ends the failed creation with the oldest revoked. -/
theorem createUserSession_eviction_witness :
    (createUserSession envC "u" 100 worldFive).2.sessions =
      revokeOldestSession "u" worldFive.sessions :=
  (createUserSession_eviction_not_atomic envC "u" 100 worldFive (by decide)
    (by decide)).2.1

end HowToJwks
